import Mathlib

/-!
# Verification of the better-trino-client protocol engine

Shallow embedding of `packages/better-trino-client/src/index.ts` together
with the protocol data types it relies on (`protocol.ts`, `types.ts`).

JavaScript plain objects used as header dictionaries are modelled as
insertion-ordered association lists from string keys to possibly-undefined
string values (`Option String`): `obj[k] = v` replaces the value of an
existing key in place or appends a new entry, `delete obj[k]` removes the
entry, spreading (`{...a, ...b}`) assigns the entries of `b` over a copy
of `a` in order, and property access returns `undefined` (`none`) for a
missing key.  JavaScript string truthiness (`undefined` and `""` are
falsy) is modelled explicitly.
-/

namespace TrinoClient

/-- A JS object holding HTTP headers: key/value entries in insertion
order; a value of `none` models a key that is present but `undefined`. -/
abbrev HeaderMap := List (String × Option String)

/-- Property access `m[k]`, keeping the distinction between an absent key
(`none`) and a key present with an `undefined` value (`some none`). -/
def lookupEntry (m : HeaderMap) (k : String) : Option (Option String) :=
  match m with
  | [] => none
  | (k', v) :: rest => if k' = k then some v else lookupEntry rest k

/-- The value JS property access `m[k]` evaluates to: `undefined` both
for an absent key and for a key bound to `undefined`. -/
def getHeader (m : HeaderMap) (k : String) : Option String :=
  (lookupEntry m k).bind id

/-- JS assignment `m[k] = v`: replaces the first binding of `k` in place,
or appends a new entry at the end. -/
def setHeader (m : HeaderMap) (k : String) (v : Option String) : HeaderMap :=
  match m with
  | [] => [(k, v)]
  | (k', v') :: rest => if k' = k then (k', v) :: rest else (k', v') :: setHeader rest k v

/-- JS `delete m[k]`. -/
def deleteHeader (m : HeaderMap) (k : String) : HeaderMap :=
  m.filter (fun p => p.1 ≠ k)

/-- JS object spread `{...a, ...b}`: the entries of `b` assigned over a
copy of `a`, in order. -/
def spreadMap (a b : HeaderMap) : HeaderMap :=
  b.foldl (fun acc p => setHeader acc p.1 p.2) a

/-- The keys of a header object, in order. -/
def keysOf (m : HeaderMap) : List String :=
  m.map Prod.fst

/-- JS truthiness of a string-or-undefined value: both `undefined` and
the empty string are falsy. -/
def truthy (v : Option String) : Bool :=
  v.getD "" != ""

/-- The value of `v` when truthy, `none` otherwise; models the idiom
`if (v) { ... use v ... }`. -/
def truthyVal (v : Option String) : Option String :=
  match v with
  | some s => if s = "" then none else some s
  | none => none

/-- JS `s || undefined`: an empty string collapses to `undefined`. -/
def strOrUndefined (s : String) : Option String :=
  if s = "" then none else some s

/-- `Object.entries(m).filter(([_, v]) => v !== undefined)` followed by
`Object.fromEntries`: drops entries whose value is `undefined`. -/
def filterDefined (m : HeaderMap) : List (String × String) :=
  m.filterMap (fun p => p.2.map (fun v => (p.1, v)))

/-- First-occurrence lookup in a string-valued entry list. -/
def lookupStr (m : List (String × String)) (k : String) : Option String :=
  match m with
  | [] => none
  | (k', v) :: rest => if k' = k then some v else lookupStr rest k

/-- JS assignment on a string-valued entry list (used for the
`Content-Type` entry added to the initial request). -/
def setEntry (m : List (String × String)) (k v : String) : List (String × String) :=
  match m with
  | [] => [(k, v)]
  | (k', v') :: rest => if k' = k then (k', v) :: rest else (k', v') :: setEntry rest k v

/-! ## Client configuration (`TrinoClientConfig`, `AuthConfig`) -/

/-- `AuthConfig = BasicAuth | BearerAuth`. -/
inductive AuthConfig where
  | basic (username password : String)
  | bearer (token : String)
deriving DecidableEq

/-- The `Trino` client instance after construction: base URL, optional
credentials, and the configured default request headers. -/
structure Trino where
  baseUrl : String
  auth : Option AuthConfig
  defaultHeaders : HeaderMap
deriving DecidableEq

/-! ## Base64 and `getAuthorizationHeader` -/

def b64Alphabet : List Char :=
  "ABCDEFGHIJKLMNOPQRSTUVWXYZabcdefghijklmnopqrstuvwxyz0123456789+/".toList

def b64Char (n : Nat) : Char :=
  b64Alphabet.getD n 'A'

/-- Standard base64 encoding of a byte list, with `=` padding. -/
def base64Chunks : List Nat → List Char
  | [] => []
  | [b1] =>
      let n := b1 * 65536
      [b64Char (n / 262144 % 64), b64Char (n / 4096 % 64), '=', '=']
  | [b1, b2] =>
      let n := b1 * 65536 + b2 * 256
      [b64Char (n / 262144 % 64), b64Char (n / 4096 % 64), b64Char (n / 64 % 64), '=']
  | b1 :: b2 :: b3 :: rest =>
      let n := b1 * 65536 + b2 * 256 + b3
      b64Char (n / 262144 % 64) :: b64Char (n / 4096 % 64) :: b64Char (n / 64 % 64) ::
        b64Char (n % 64) :: base64Chunks rest

/-- `Buffer.from(s).toString("base64")`. -/
def base64Encode (s : String) : String :=
  String.mk (base64Chunks (s.toUTF8.toList.map (fun b => b.toNat)))

/-- `getAuthorizationHeader`: `Basic {base64(user:pass)}` or
`Bearer {token}`; the empty string when no credentials are configured. -/
def getAuthorizationHeader (cl : Trino) : String :=
  match cl.auth with
  | none => ""
  | some (AuthConfig.basic u p) => "Basic " ++ base64Encode (u ++ ":" ++ p)
  | some (AuthConfig.bearer t) => "Bearer " ++ t

/-! ## `buildHeaders` -/

/-- `buildHeaders(sessionHeaders, customHeaders?)`: spread defaults, then
session headers, then per-call custom headers; set `Authorization` when
credentials are configured; drop `undefined`-valued entries. -/
def buildHeaders (cl : Trino) (sessionHeaders : HeaderMap) (customHeaders : Option HeaderMap) :
    List (String × String) :=
  let headers := spreadMap (spreadMap cl.defaultHeaders sessionHeaders) (customHeaders.getD [])
  let headers :=
    match cl.auth with
    | some _ => setHeader headers "Authorization" (some (getAuthorizationHeader cl))
    | none => headers
  filterDefined headers

/-- First-defined choice between two possibly-missing entries. -/
def firstOf (a b : Option (Option String)) : Option (Option String) :=
  match a with
  | some v => some v
  | none => b

/-- Modelled from the spec (§4.1 step 1): the value the outbound header
set should carry at key `k` — defaults, then session state, then per-call
overrides, then the authorization header, later sources winning on a key
conflict, with `undefined`-valued entries dropped before transmission. -/
def specMergedHeader (cl : Trino) (sessionHeaders : HeaderMap) (customHeaders : Option HeaderMap)
    (k : String) : Option String :=
  if cl.auth.isSome ∧ k = "Authorization" then some (getAuthorizationHeader cl)
  else
    (firstOf (lookupEntry (customHeaders.getD []) k)
      (firstOf (lookupEntry sessionHeaders k)
        (lookupEntry cl.defaultHeaders k))).bind id

/-! ## JS string operations used by the session logic -/

/-- Worker for `splitComma`: accumulates the current piece (reversed). -/
def splitCommaAux : List Char → List Char → List String
  | [], acc => [String.mk acc.reverse]
  | c :: rest, acc =>
      if c = ',' then String.mk acc.reverse :: splitCommaAux rest []
      else splitCommaAux rest (c :: acc)

/-- JS `s.split(",")`: the empty string yields `[""]`, a trailing or
leading comma yields an empty piece. -/
def splitComma (s : String) : List String :=
  splitCommaAux s.data []

/-- JS `array.join(",")`. -/
def joinComma : List String → String
  | [] => ""
  | [a] => a
  | a :: b :: rest => a ++ "," ++ joinComma (b :: rest)

/-- JS `s.startsWith(p)`. -/
def startsWithStr (s p : String) : Bool :=
  p.data.isPrefixOf s.data

/-! ## `updateSessionHeaders`

`updateSessionHeaders(sessionHeaders, responseHeaders)` copies the
current session headers (`{...sessionHeaders}`) and then processes the
twelve directive branches in source order.  The `updates` object is
populated by `responseHeaders.forEach((value, key) => updates[key] = value)`,
copying each response-header key verbatim; every subsequent lookup uses
the exact mixed-case key strings written in the source
(`updates["X-Trino-Set-Catalog"]` and so on), and JS property access is
case-sensitive. -/

/-- Faithful embedding of `updateSessionHeaders`. -/
def updateSessionHeaders (cl : Trino) (sessionHeaders : HeaderMap)
    (responseHeaders : List (String × String)) : HeaderMap :=
  let updates : HeaderMap :=
    responseHeaders.foldl (fun acc p => setHeader acc p.1 (some p.2)) []
  let m0 := sessionHeaders
  let m1 :=
    match truthyVal (getHeader updates "X-Trino-Set-Catalog") with
    | some v => setHeader m0 "X-Trino-Catalog" (some v)
    | none => m0
  let m2 :=
    match truthyVal (getHeader updates "X-Trino-Set-Schema") with
    | some v => setHeader m1 "X-Trino-Schema" (some v)
    | none => m1
  let m3 :=
    match truthyVal (getHeader updates "X-Trino-Set-Path") with
    | some v => setHeader m2 "X-Trino-Path" (some v)
    | none => m2
  let m4 :=
    match truthyVal (getHeader updates "X-Trino-Set-Session") with
    | some v =>
        let currentSession := (getHeader m3 "X-Trino-Session").getD ""
        let sessions := if currentSession = "" then [] else splitComma currentSession
        setHeader m3 "X-Trino-Session" (some (joinComma (sessions ++ [v])))
    | none => m3
  let m5 :=
    match truthyVal (getHeader updates "X-Trino-Clear-Session") with
    | some propertyToRemove =>
        let currentSession := (getHeader m4 "X-Trino-Session").getD ""
        let sessions :=
          (splitComma currentSession).filter
            (fun s => !(startsWithStr s (propertyToRemove ++ "=")))
        setHeader m4 "X-Trino-Session" (strOrUndefined (joinComma sessions))
    | none => m4
  let m6 :=
    match truthyVal (getHeader updates "X-Trino-Set-Role") with
    | some v => setHeader m5 "X-Trino-Role" (some v)
    | none => m5
  let m7 :=
    match truthyVal (getHeader updates "X-Trino-Added-Prepare") with
    | some v =>
        let currentPrepared := (getHeader m6 "X-Trino-Prepared-Statement").getD ""
        let prepared := if currentPrepared = "" then [] else splitComma currentPrepared
        setHeader m6 "X-Trino-Prepared-Statement"
          (some (joinComma (prepared ++ [v])))
    | none => m6
  let m8 :=
    match truthyVal (getHeader updates "X-Trino-Deallocated-Prepare") with
    | some nameToRemove =>
        let currentPrepared := (getHeader m7 "X-Trino-Prepared-Statement").getD ""
        let prepared :=
          (splitComma currentPrepared).filter
            (fun s => !(startsWithStr s (nameToRemove ++ "=")))
        setHeader m7 "X-Trino-Prepared-Statement"
          (strOrUndefined (joinComma prepared))
    | none => m7
  let m9 :=
    match truthyVal (getHeader updates "X-Trino-Started-Transaction-Id") with
    | some v => setHeader m8 "X-Trino-Transaction-Id" (some v)
    | none => m8
  let m10 :=
    match truthyVal (getHeader updates "X-Trino-Clear-Transaction-Id") with
    | some _ => deleteHeader m9 "X-Trino-Transaction-Id"
    | none => m9
  let m11 :=
    match truthyVal (getHeader updates "X-Trino-Set-Authorization-User") with
    | some v =>
        let na := setHeader m10 "X-Trino-User" (some v)
        if !truthy (getHeader na "X-Trino-Original-User") &&
            truthy (getHeader cl.defaultHeaders "X-Trino-User") then
          setHeader na "X-Trino-Original-User" (getHeader cl.defaultHeaders "X-Trino-User")
        else na
    | none => m10
  let m12 :=
    match truthyVal (getHeader updates "X-Trino-Reset-Authorization-User") with
    | some _ =>
        if truthy (getHeader m11 "X-Trino-Original-User") then
          deleteHeader (setHeader m11 "X-Trino-User" (getHeader m11 "X-Trino-Original-User"))
            "X-Trino-Original-User"
        else m11
    | none => m11
  m12

/-! ## Protocol data types (`protocol.ts`, `types.ts`) -/

/-- `ErrorLocation`. -/
structure ErrorLocation where
  lineNumber : Int
  columnNumber : Int

/-- `FailureInfo`: recursive failure chain with suppressed failures and a
stack trace.  The open-ended `errorInfo` map is irrelevant to every claim
and omitted. -/
inductive FailureInfo where
  | mk (type : String) (message : Option String) (cause : Option FailureInfo)
      (suppressed : List FailureInfo) (stack : List String)
      (errorLocation : Option ErrorLocation)

/-- `QueryError`: the structured protocol-error payload.  The source
types `errorType` as the four-literal union
`"USER_ERROR" | "INTERNAL_ERROR" | "EXTERNAL" | "INSUFFICIENT_RESOURCES"`
and `errorName` as a (non-closed) string union; both are strings at
runtime and are modelled as such, so that the behaviour of the classifier
on an out-of-contract discriminant is expressible. -/
structure QueryError where
  message : String
  sqlState : Option String
  errorCode : Int
  errorLocation : Option ErrorLocation
  failureInfo : Option FailureInfo
  errorType : String
  errorName : String

/-- `TrinoQueryError`: the classified error `{...error, _tag}` — the tag
together with the complete original payload (the object spread copies
every field of `error` unchanged). -/
structure TrinoQueryError where
  tag : String
  err : QueryError

/-- `createQueryError`: the four-case switch on `errorType`.  The switch
has no default branch, so for any other `errorType` string control falls
off the end of the function and it returns `undefined`, modelled as
`none`. -/
def createQueryError (error : QueryError) : Option TrinoQueryError :=
  match error.errorType with
  | "USER_ERROR" => some ⟨"UserError", error⟩
  | "INTERNAL_ERROR" => some ⟨"InternalError", error⟩
  | "EXTERNAL" => some ⟨"ExternalError", error⟩
  | "INSUFFICIENT_RESOURCES" => some ⟨"InsufficientResourcesError", error⟩
  | _ => none

/-- `QueryResults`: the statement-result payload.  Fields never inspected
by the engine (columns, row data, statistics, warnings) are claim-inert
and represented only by the opaque `payload` remainder field, keeping the
fields the engine reads (`nextUri`, `error`) and the identifying fields. -/
structure QueryResults where
  id : String
  infoUri : String
  /-- the partial-cancel URI field of the protocol. -/
  cancelUri : Option String
  nextUri : Option String
  updateType : Option String
  /-- opaque remainder of the payload (columns, data, stats, warnings). -/
  payload : String
  error : Option QueryError

/-- `QuerySuccessResult = Omit<QueryResults, "error">`: what the
destructuring `const { error: _omitted, ...successResult } = result`
yields. -/
structure QuerySuccessResult where
  id : String
  infoUri : String
  cancelUri : Option String
  nextUri : Option String
  updateType : Option String
  payload : String

/-- The destructuring that drops the `error` field. -/
def toSuccess (r : QueryResults) : QuerySuccessResult :=
  ⟨r.id, r.infoUri, r.cancelUri, r.nextUri, r.updateType, r.payload⟩

/-- A transport response: HTTP success flag (`response.ok`), response
headers, and the body; `body = none` models `response.json()` throwing. -/
structure MockResponse where
  ok : Bool
  headers : List (String × String)
  body : Option QueryResults

/-- Outcome of one `fetch` call: either the promise rejects with a
transport error, or a response arrives. -/
inductive FetchOutcome where
  | netError (e : String)
  | success (r : MockResponse)

/-- `QueryErrorResult = FetchError | HttpError | TrinoQueryError`. -/
inductive QueryErrorResult where
  | fetchError (e : String)
  | httpError (r : MockResponse)
  | queryError (t : TrinoQueryError)

/-- `Result<T, E>`. -/
inductive Result (T E : Type) where
  | ok (value : T)
  | err (error : E)

/-- One envelope of the result sequence.  The error side is
`Option QueryErrorResult` because `createQueryError` can return
`undefined`, which the engine yields unchanged inside the failure
envelope. -/
abbrev QueryResult := Result QuerySuccessResult (Option QueryErrorResult)

/-- One HTTP request as issued by the engine. -/
structure HttpRequest where
  method : String
  url : String
  headers : List (String × String)
deriving DecidableEq

/-! ## `executeQuery`

The generator is modelled as a function from the sequence of successive
`fetch` outcomes (served in order; an exhausted sequence behaves as a
transport failure) to the pair of the request trace and the emitted
envelope list. -/

/-- The `while (result.nextUri)` continuation loop of `executeQuery`:
issues `GET nextUri` with `this.buildHeaders(sessionHeaders)` (no
per-call custom headers), folds response headers into the session, and
repeats until a success payload carries no `nextUri`. -/
def queryLoop (cl : Trino) (sessionHeaders : HeaderMap) (nextUri : Option String)
    (oracle : List FetchOutcome) : List HttpRequest × List QueryResult :=
  match nextUri with
  | none => ([], [])
  | some uri =>
    let req : HttpRequest := ⟨"GET", uri, buildHeaders cl sessionHeaders none⟩
    match oracle with
    | [] => ([req], [Result.err (some (QueryErrorResult.fetchError "no response"))])
    | FetchOutcome.netError e :: _ =>
        ([req], [Result.err (some (QueryErrorResult.fetchError e))])
    | FetchOutcome.success r :: rest =>
        if !r.ok then ([req], [Result.err (some (QueryErrorResult.httpError r))])
        else
          let session := updateSessionHeaders cl sessionHeaders r.headers
          match r.body with
          | none => ([req], [Result.err (some (QueryErrorResult.fetchError "parse failure"))])
          | some result =>
            match result.error with
            | some e =>
                ([req], [Result.err ((createQueryError e).map QueryErrorResult.queryError)])
            | none =>
                let next := queryLoop cl session result.nextUri rest
                (req :: next.1, Result.ok (toSuccess result) :: next.2)

/-- `executeQuery(sql, options?)`: fresh empty session headers, initial
`POST {base}/v1/statement` with the per-call custom headers and
`Content-Type: text/plain`, then the continuation loop. -/
def executeQuery (cl : Trino) (options : Option HeaderMap) (oracle : List FetchOutcome) :
    List HttpRequest × List QueryResult :=
  let sessionHeaders : HeaderMap := []
  let headers := buildHeaders cl sessionHeaders options
  let req : HttpRequest :=
    ⟨"POST", cl.baseUrl ++ "/v1/statement", setEntry headers "Content-Type" "text/plain"⟩
  match oracle with
  | [] => ([req], [Result.err (some (QueryErrorResult.fetchError "no response"))])
  | FetchOutcome.netError e :: _ =>
      ([req], [Result.err (some (QueryErrorResult.fetchError e))])
  | FetchOutcome.success r :: rest =>
      if !r.ok then ([req], [Result.err (some (QueryErrorResult.httpError r))])
      else
        let session := updateSessionHeaders cl [] r.headers
        match r.body with
        | none => ([req], [Result.err (some (QueryErrorResult.fetchError "parse failure"))])
        | some result =>
          match result.error with
          | some e =>
              ([req], [Result.err ((createQueryError e).map QueryErrorResult.queryError)])
          | none =>
              let next := queryLoop cl session result.nextUri rest
              (req :: next.1, Result.ok (toSuccess result) :: next.2)

/-! ## `cancelQuery` -/

/-- Outcome of `cancelQuery`: `Result<void, FetchError | HttpError>`. -/
inductive CancelResult where
  | ok
  | fetchError (e : String)
  | httpError (r : MockResponse)

/-- `cancelQuery(cancelUri)`: one `DELETE` to the given URI with
`this.buildHeaders({})` — the client instance holds no session state, so
the headers are defaults (plus authorization) only. -/
def cancelQuery (cl : Trino) (cancelUri : String) (outcome : FetchOutcome) :
    HttpRequest × CancelResult :=
  let req : HttpRequest := ⟨"DELETE", cancelUri, buildHeaders cl [] none⟩
  match outcome with
  | FetchOutcome.netError e => (req, CancelResult.fetchError e)
  | FetchOutcome.success r =>
      if !r.ok then (req, CancelResult.httpError r) else (req, CancelResult.ok)

/-! ## Concrete example values -/

/-- Client with no credentials and no default headers. -/
def clW : Trino := ⟨"http://localhost:8080", none, []⟩

/-- Client configured with a default user under the mixed-case key the
session logic reads. -/
def clU : Trino := ⟨"http://localhost:8080", none, [("X-Trino-User", some "alice")]⟩

/-- Client with bearer credentials and two default headers. -/
def clW2 : Trino :=
  ⟨"http://localhost:8080", some (AuthConfig.bearer "tok"),
    [("x-trino-user", some "alice"), ("x-trino-catalog", some "tpch")]⟩

/-- A structured error payload whose `errorType` is outside the four
recognized discriminants. -/
def eBad : QueryError :=
  ⟨"Query was canceled", none, 1, none, none, "UNKNOWN_ERROR_TYPE", "USER_CANCELED"⟩

/-- A structured user-error payload. -/
def eUser : QueryError :=
  ⟨"line 1:1: mismatched input", some "42000", 1, some ⟨1, 1⟩, none, "USER_ERROR",
    "SYNTAX_ERROR"⟩

/-- A 2xx response whose body carries the out-of-contract error payload. -/
def rBad : MockResponse :=
  ⟨true, [], some ⟨"q1", "http://localhost:8080/ui/query/q1", none, none, none, "", some eBad⟩⟩

/-- Discriminant of an envelope. -/
def isOkEnv : QueryResult → Bool
  | Result.ok _ => true
  | Result.err _ => false

/-- Once a failure envelope appears, nothing follows it. -/
def noEnvAfterFailure : List QueryResult → Bool
  | [] => true
  | e :: rest => if isOkEnv e then noEnvAfterFailure rest else rest.isEmpty

/-- The claimed sequence shape: at least one envelope, and every
envelope except possibly the last is a success (equivalently: zero or
more successes followed by at most one terminal failure). -/
def goodShape (l : List QueryResult) : Bool :=
  !l.isEmpty && noEnvAfterFailure l

end TrinoClient


namespace TrinoClient

/-! ### Association-list lemmas -/

theorem lookupEntry_setHeader_self (m : HeaderMap) (k : String) (v : Option String) :
    lookupEntry (setHeader m k v) k = some v := by
  induction m with
  | nil => simp [setHeader, lookupEntry]
  | cons p rest ih =>
      by_cases h : p.1 = k
      · simp [setHeader, lookupEntry, h]
      · simp [setHeader, lookupEntry, h, ih]

theorem lookupEntry_setHeader_ne (m : HeaderMap) (k k' : String) (v : Option String)
    (h : k' ≠ k) : lookupEntry (setHeader m k v) k' = lookupEntry m k' := by
  induction m with
  | nil => simp [setHeader, lookupEntry, Ne.symm h]
  | cons p rest ih =>
      by_cases hp : p.1 = k
      · simp [setHeader, lookupEntry, hp, Ne.symm h]
      · simp [setHeader, lookupEntry, hp, ih]

theorem getHeader_setHeader_self (m : HeaderMap) (k : String) (v : Option String) :
    getHeader (setHeader m k v) k = v := by
  simp [getHeader, lookupEntry_setHeader_self]

theorem getHeader_setHeader_ne (m : HeaderMap) (k k' : String) (v : Option String)
    (h : k' ≠ k) : getHeader (setHeader m k v) k' = getHeader m k' := by
  simp [getHeader, lookupEntry_setHeader_ne m k k' v h]

theorem lookupEntry_deleteHeader_self (m : HeaderMap) (k : String) :
    lookupEntry (deleteHeader m k) k = none := by
  induction m with
  | nil => simp [deleteHeader, lookupEntry]
  | cons p rest ih =>
      by_cases h : p.1 = k
      · have e : deleteHeader (p :: rest) k = deleteHeader rest k := by
          simp [deleteHeader, List.filter_cons, h]
        rw [e]; exact ih
      · have e : deleteHeader (p :: rest) k = p :: deleteHeader rest k := by
          simp [deleteHeader, List.filter_cons, h]
        rw [e, lookupEntry]; simp [h, ih]

theorem lookupEntry_deleteHeader_ne (m : HeaderMap) (k k' : String) (h : k' ≠ k) :
    lookupEntry (deleteHeader m k) k' = lookupEntry m k' := by
  induction m with
  | nil => simp [deleteHeader, lookupEntry]
  | cons p rest ih =>
      by_cases hp : p.1 = k
      · have e : deleteHeader (p :: rest) k = deleteHeader rest k := by
          simp [deleteHeader, List.filter_cons, hp]
        have hpk' : p.1 ≠ k' := by rw [hp]; exact Ne.symm h
        rw [e, ih, lookupEntry]
        simp [hpk']
      · have e : deleteHeader (p :: rest) k = p :: deleteHeader rest k := by
          simp [deleteHeader, List.filter_cons, hp]
        rw [e, lookupEntry, lookupEntry, ih]

theorem getHeader_deleteHeader_self (m : HeaderMap) (k : String) :
    getHeader (deleteHeader m k) k = none := by
  simp [getHeader, lookupEntry_deleteHeader_self]

theorem getHeader_deleteHeader_ne (m : HeaderMap) (k k' : String) (h : k' ≠ k) :
    getHeader (deleteHeader m k) k' = getHeader m k' := by
  simp [getHeader, lookupEntry_deleteHeader_ne m k k' h]

theorem keysOf_cons (p : String × Option String) (rest : HeaderMap) :
    keysOf (p :: rest) = p.1 :: keysOf rest := rfl

theorem lookupEntry_eq_none (m : HeaderMap) (k : String) (h : k ∉ keysOf m) :
    lookupEntry m k = none := by
  induction m with
  | nil => rfl
  | cons p rest ih =>
      rw [keysOf_cons, List.mem_cons] at h
      push_neg at h
      rw [lookupEntry]
      simp [Ne.symm h.1]
      exact ih h.2

theorem mem_keysOf_setHeader (m : HeaderMap) (k k' : String) (v : Option String)
    (h : k' ∈ keysOf (setHeader m k v)) : k' = k ∨ k' ∈ keysOf m := by
  induction m with
  | nil =>
      rw [setHeader] at h
      simp [keysOf] at h
      exact Or.inl h
  | cons p rest ih =>
      obtain ⟨k0, v0⟩ := p
      by_cases hp : k0 = k
      · rw [setHeader, if_pos hp, keysOf_cons, List.mem_cons] at h
        rcases h with h | h
        · exact Or.inr (by rw [keysOf_cons, List.mem_cons]; exact Or.inl h)
        · exact Or.inr (by rw [keysOf_cons, List.mem_cons]; exact Or.inr h)
      · rw [setHeader, if_neg hp, keysOf_cons, List.mem_cons] at h
        rcases h with h | h
        · exact Or.inr (by rw [keysOf_cons, List.mem_cons]; exact Or.inl h)
        · rcases ih h with h2 | h2
          · exact Or.inl h2
          · exact Or.inr (by rw [keysOf_cons, List.mem_cons]; exact Or.inr h2)

theorem nodup_setHeader (m : HeaderMap) (k : String) (v : Option String)
    (h : (keysOf m).Nodup) : (keysOf (setHeader m k v)).Nodup := by
  induction m with
  | nil =>
      rw [setHeader]
      simp [keysOf]
  | cons p rest ih =>
      obtain ⟨k0, v0⟩ := p
      rw [keysOf_cons, List.nodup_cons] at h
      by_cases hp : k0 = k
      · rw [setHeader, if_pos hp, keysOf_cons, List.nodup_cons]
        exact ⟨h.1, h.2⟩
      · rw [setHeader, if_neg hp, keysOf_cons, List.nodup_cons]
        refine ⟨?_, ih h.2⟩
        intro hmem
        rcases mem_keysOf_setHeader rest k k0 v hmem with h2 | h2
        · exact hp h2
        · exact h.1 h2

theorem nodup_spreadMap (a b : HeaderMap) (ha : (keysOf a).Nodup) :
    (keysOf (spreadMap a b)).Nodup := by
  induction b generalizing a with
  | nil => simpa [spreadMap] using ha
  | cons p rest ih =>
      rw [spreadMap]
      simp only [List.foldl_cons]
      exact ih (setHeader a p.1 p.2) (nodup_setHeader a p.1 p.2 ha)

theorem spreadMap_cons (a : HeaderMap) (p : String × Option String) (rest : HeaderMap) :
    spreadMap a (p :: rest) = spreadMap (setHeader a p.1 p.2) rest := by
  simp [spreadMap]

theorem lookupEntry_spreadMap (a b : HeaderMap) (k : String) (hb : (keysOf b).Nodup) :
    lookupEntry (spreadMap a b) k = firstOf (lookupEntry b k) (lookupEntry a k) := by
  induction b generalizing a with
  | nil => simp [spreadMap, lookupEntry, firstOf]
  | cons p rest ih =>
      rw [keysOf_cons, List.nodup_cons] at hb
      rw [spreadMap_cons]
      by_cases hk : p.1 = k
      · have hkrest : lookupEntry rest k = none :=
          lookupEntry_eq_none rest k (hk ▸ hb.1)
        rw [ih (setHeader a p.1 p.2) hb.2, hkrest, lookupEntry]
        subst hk
        simp [firstOf, lookupEntry_setHeader_self]
      · rw [ih (setHeader a p.1 p.2) hb.2, lookupEntry]
        simp [hk, lookupEntry_setHeader_ne a p.1 k p.2 (fun hh => hk hh.symm)]

theorem filterDefined_cons_none (p : String × Option String) (rest : HeaderMap)
    (hv : p.2 = none) : filterDefined (p :: rest) = filterDefined rest := by
  simp [filterDefined, List.filterMap_cons, hv]

theorem filterDefined_cons_some (p : String × Option String) (rest : HeaderMap) (w : String)
    (hv : p.2 = some w) : filterDefined (p :: rest) = (p.1, w) :: filterDefined rest := by
  simp [filterDefined, List.filterMap_cons, hv]

theorem lookupStr_filterDefined_none (m : HeaderMap) (k : String) (h : k ∉ keysOf m) :
    lookupStr (filterDefined m) k = none := by
  induction m with
  | nil => rfl
  | cons p rest ih =>
      rw [keysOf_cons, List.mem_cons] at h
      push_neg at h
      cases hv : p.2 with
      | none => rw [filterDefined_cons_none p rest hv]; exact ih h.2
      | some w =>
          rw [filterDefined_cons_some p rest w hv, lookupStr]
          simp [Ne.symm h.1]
          exact ih h.2

theorem lookupStr_filterDefined (m : HeaderMap) (k : String) (hm : (keysOf m).Nodup) :
    lookupStr (filterDefined m) k = (lookupEntry m k).bind id := by
  induction m with
  | nil => rfl
  | cons p rest ih =>
      rw [keysOf_cons, List.nodup_cons] at hm
      by_cases hk : p.1 = k
      · cases hv : p.2 with
        | none =>
            rw [filterDefined_cons_none p rest hv, lookupEntry]
            simp [hk, hv]
            exact lookupStr_filterDefined_none rest k (hk ▸ hm.1)
        | some w =>
            rw [filterDefined_cons_some p rest w hv, lookupStr, lookupEntry]
            simp [hk, hv]
      · cases hv : p.2 with
        | none =>
            rw [filterDefined_cons_none p rest hv, lookupEntry]
            simp [hk]
            exact ih hm.2
        | some w =>
            rw [filterDefined_cons_some p rest w hv, lookupStr, lookupEntry]
            simp [hk]
            exact ih hm.2

theorem nodup_buildHeadersBase (cl : Trino) (sh : HeaderMap) (ch : Option HeaderMap)
    (hd : (keysOf cl.defaultHeaders).Nodup) :
    (keysOf (spreadMap (spreadMap cl.defaultHeaders sh) (ch.getD []))).Nodup :=
  nodup_spreadMap _ _ (nodup_spreadMap _ _ hd)

/-- C2: for every call, each outbound header key produced by
`buildHeaders` carries the value of the precedence merge of defaults,
then session state, then per-call overrides, then the
authorization header (later source wins on a key conflict), with every
`undefined`-valued entry dropped before transmission.  (`executeQuery`
afterwards adds the fixed `Content-Type: text/plain` entry to the initial
request, see the session-isolation theorem for that linking.)  The
`Nodup` hypotheses state that each header object binds each key once,
which JS objects guarantee by construction. -/
theorem buildHeaders_precedence_merge (cl : Trino) (sh : HeaderMap) (ch : Option HeaderMap) (k : String)
    (hd : (keysOf cl.defaultHeaders).Nodup) (hs : (keysOf sh).Nodup)
    (hc : (keysOf (ch.getD [])).Nodup) :
    lookupStr (buildHeaders cl sh ch) k = specMergedHeader cl sh ch k := by
  have hbase := nodup_buildHeadersBase cl sh ch hd
  have hlook : lookupEntry (spreadMap (spreadMap cl.defaultHeaders sh) (ch.getD [])) k =
      firstOf (lookupEntry (ch.getD []) k)
        (firstOf (lookupEntry sh k) (lookupEntry cl.defaultHeaders k)) := by
    rw [lookupEntry_spreadMap _ _ _ hc, lookupEntry_spreadMap _ _ _ hs]
  cases hauth : cl.auth with
  | none =>
      rw [buildHeaders]
      simp only [hauth]
      rw [lookupStr_filterDefined _ _ hbase, hlook, specMergedHeader]
      simp [hauth]
  | some a =>
      rw [buildHeaders]
      simp only [hauth]
      by_cases hk : k = "Authorization"
      · subst hk
        rw [lookupStr_filterDefined _ _ (nodup_setHeader _ _ _ hbase),
          lookupEntry_setHeader_self, specMergedHeader]
        simp [hauth]
      · rw [lookupStr_filterDefined _ _ (nodup_setHeader _ _ _ hbase),
          lookupEntry_setHeader_ne _ _ _ _ hk, hlook, specMergedHeader]
        simp [hauth, hk]

/-! ### String-level lemmas for the comma-joined multiset fields -/

theorem data_append (a b : String) : (a ++ b).data = a.data ++ b.data := by
  cases a; cases b; rfl

theorem string_eq_iff_data (a b : String) : a = b ↔ a.data = b.data := by
  cases a; cases b
  exact ⟨fun h => by injection h, fun h => congrArg String.mk h⟩

theorem splitCommaAux_no_comma (l : List Char) (acc : List Char)
    (h : ∀ c ∈ l, c ≠ ',') : splitCommaAux l acc = [String.mk (acc.reverse ++ l)] := by
  induction l generalizing acc with
  | nil => simp [splitCommaAux]
  | cons c rest ih =>
      have hc : c ≠ ',' := h c (List.mem_cons_self c rest)
      rw [splitCommaAux, if_neg hc, ih (c :: acc) (fun x hx => h x (List.mem_cons_of_mem c hx))]
      simp

theorem splitComma_no_comma (s : String) (h : ',' ∉ s.data) : splitComma s = [s] := by
  rw [splitComma, splitCommaAux_no_comma s.data [] (fun c hc => fun he => h (he ▸ hc))]
  simp

theorem splitCommaAux_append (l : List Char) (rest : List Char) (acc : List Char)
    (h : ∀ c ∈ l, c ≠ ',') :
    splitCommaAux (l ++ ',' :: rest) acc = String.mk (acc.reverse ++ l) :: splitCommaAux rest [] := by
  induction l generalizing acc with
  | nil => simp [splitCommaAux]
  | cons c l' ih =>
      have hc : c ≠ ',' := h c (List.mem_cons_self c l')
      rw [List.cons_append, splitCommaAux, if_neg hc,
        ih (c :: acc) (fun x hx => h x (List.mem_cons_of_mem c hx))]
      simp

theorem splitComma_append_comma (a b : String) (h : ',' ∉ a.data) :
    splitComma (a ++ "," ++ b) = a :: splitComma b := by
  have hdata : (a ++ "," ++ b).data = a.data ++ ',' :: b.data := by
    have h1 : (",".data) = [','] := rfl
    rw [data_append, data_append, h1, List.append_assoc]
    rfl
  rw [splitComma, hdata, splitCommaAux_append a.data b.data []
    (fun c hc => fun he => h (he ▸ hc))]
  simp [splitComma]

theorem joinComma_two (a b : String) : joinComma [a, b] = a ++ "," ++ b := rfl

theorem joinComma_one (a : String) : joinComma [a] = a := rfl

theorem joinComma_ne_empty (l : List String) (hne : l ≠ [])
    (h : ∀ e ∈ l, e ≠ "") : joinComma l ≠ "" := by
  match l with
  | [] => exact absurd rfl hne
  | [a] => exact h a (List.mem_singleton.mpr rfl)
  | a :: b :: rest =>
      rw [joinComma]
      intro he
      rw [string_eq_iff_data] at he
      rw [data_append, data_append] at he
      simp at he

theorem mem_splitCommaAux_no_comma (l acc : List Char) (hacc : ∀ c ∈ acc, c ≠ ',') :
    ∀ e ∈ splitCommaAux l acc, ',' ∉ e.data := by
  induction l generalizing acc with
  | nil =>
      intro e he
      rw [splitCommaAux] at he
      rw [List.mem_singleton] at he
      subst he
      intro hm
      simp at hm
      exact hacc ',' hm rfl
  | cons c rest ih =>
      intro e he
      by_cases hc : c = ','
      · rw [splitCommaAux, if_pos hc] at he
        rw [List.mem_cons] at he
        rcases he with he | he
        · subst he
          intro hm
          simp at hm
          exact hacc ',' hm rfl
        · exact ih [] (by simp) e he
      · rw [splitCommaAux, if_neg hc] at he
        refine ih (c :: acc) ?_ e he
        intro x hx
        rw [List.mem_cons] at hx
        rcases hx with hx | hx
        · exact hx ▸ hc
        · exact hacc x hx

theorem mem_splitComma_no_comma (s : String) : ∀ e ∈ splitComma s, ',' ∉ e.data := by
  rw [splitComma]
  exact mem_splitCommaAux_no_comma s.data [] (by simp)

/-! ### Reduction of `updateSessionHeaders` on single-directive responses -/

theorem update_startTransaction (cl : Trino) (s : HeaderMap) (tid : String) (h : tid ≠ "") :
    updateSessionHeaders cl s [("X-Trino-Started-Transaction-Id", tid)] =
      setHeader s "X-Trino-Transaction-Id" (some tid) := by
  simp [updateSessionHeaders, getHeader, lookupEntry, setHeader, truthyVal, h]

theorem update_clearTransaction (cl : Trino) (s : HeaderMap) (c : String) (h : c ≠ "") :
    updateSessionHeaders cl s [("X-Trino-Clear-Transaction-Id", c)] =
      deleteHeader s "X-Trino-Transaction-Id" := by
  simp [updateSessionHeaders, getHeader, lookupEntry, setHeader, truthyVal, h]

theorem update_setSession (cl : Trino) (s : HeaderMap) (e : String) (h : e ≠ "") :
    updateSessionHeaders cl s [("X-Trino-Set-Session", e)] =
      setHeader s "X-Trino-Session"
        (some (joinComma
          ((if (getHeader s "X-Trino-Session").getD "" = "" then []
            else splitComma ((getHeader s "X-Trino-Session").getD "")) ++ [e]))) := by
  simp [updateSessionHeaders, getHeader, lookupEntry, setHeader, truthyVal, h]

theorem update_clearSession (cl : Trino) (s : HeaderMap) (k : String) (h : k ≠ "") :
    updateSessionHeaders cl s [("X-Trino-Clear-Session", k)] =
      setHeader s "X-Trino-Session"
        (strOrUndefined (joinComma
          ((splitComma ((getHeader s "X-Trino-Session").getD "")).filter
            (fun e => !(startsWithStr e (k ++ "=")))))) := by
  simp [updateSessionHeaders, getHeader, lookupEntry, setHeader, truthyVal, h]

theorem update_addPrepare (cl : Trino) (s : HeaderMap) (e : String) (h : e ≠ "") :
    updateSessionHeaders cl s [("X-Trino-Added-Prepare", e)] =
      setHeader s "X-Trino-Prepared-Statement"
        (some (joinComma
          ((if (getHeader s "X-Trino-Prepared-Statement").getD "" = "" then []
            else splitComma ((getHeader s "X-Trino-Prepared-Statement").getD "")) ++ [e]))) := by
  simp [updateSessionHeaders, getHeader, lookupEntry, setHeader, truthyVal, h]

theorem update_deallocPrepare (cl : Trino) (s : HeaderMap) (k : String) (h : k ≠ "") :
    updateSessionHeaders cl s [("X-Trino-Deallocated-Prepare", k)] =
      setHeader s "X-Trino-Prepared-Statement"
        (strOrUndefined (joinComma
          ((splitComma ((getHeader s "X-Trino-Prepared-Statement").getD "")).filter
            (fun e => !(startsWithStr e (k ++ "=")))))) := by
  simp [updateSessionHeaders, getHeader, lookupEntry, setHeader, truthyVal, h]

theorem update_setAuthUser (cl : Trino) (s : HeaderMap) (u : String) (h : u ≠ "") :
    updateSessionHeaders cl s [("X-Trino-Set-Authorization-User", u)] =
      (if !truthy (getHeader (setHeader s "X-Trino-User" (some u)) "X-Trino-Original-User") &&
          truthy (getHeader cl.defaultHeaders "X-Trino-User") then
        setHeader (setHeader s "X-Trino-User" (some u)) "X-Trino-Original-User"
          (getHeader cl.defaultHeaders "X-Trino-User")
      else setHeader s "X-Trino-User" (some u)) := by
  simp [updateSessionHeaders, getHeader, lookupEntry, setHeader, truthyVal, h]

theorem update_resetAuthUser (cl : Trino) (s : HeaderMap) (c : String) (h : c ≠ "") :
    updateSessionHeaders cl s [("X-Trino-Reset-Authorization-User", c)] =
      (if truthy (getHeader s "X-Trino-Original-User") then
        deleteHeader (setHeader s "X-Trino-User" (getHeader s "X-Trino-Original-User"))
          "X-Trino-Original-User"
      else s) := by
  simp [updateSessionHeaders, getHeader, lookupEntry, setHeader, truthyVal, h]


theorem startsWithStr_empty_false (p : String) (h : p.data ≠ []) :
    startsWithStr "" p = false := by
  rw [startsWithStr]
  cases hd : p.data with
  | nil => exact absurd hd h
  | cons a as => rfl

theorem data_ne_nil_append_eq (k : String) : (k ++ "=").data ≠ [] := by
  rw [data_append]
  simp

/-- C3: the session-property and prepared-statement sets behave as
order-preserving multisets keyed by the substring before the equals sign.
Starting from a state whose set is empty (falsy), appending entry `e1`
then `e2` (both keyed by `k`) and then clearing `k` leaves the field
absent (value `undefined`, dropped from every outbound header set), for
both the session-property and the prepared-statement set; clearing a key
on a state whose set was never created changes no observable field; and
on any existing set, clearing removes exactly the entries whose key
prefix matches, keeping the rest in order and removing the field
entirely when nothing remains.  The comma/empty side conditions state
that entries are well-formed (non-empty, comma-free) multiset members. -/
theorem session_multiset_append_clear
    (cl : Trino) (s : HeaderMap) (k e1 e2 : String)
    (hk : k ≠ "")
    (he1 : startsWithStr e1 (k ++ "=") = true) (he2 : startsWithStr e2 (k ++ "=") = true)
    (hne1 : e1 ≠ "") (hne2 : e2 ≠ "")
    (hc1 : ',' ∉ e1.data) (hc2 : ',' ∉ e2.data) :
    (truthy (getHeader s "X-Trino-Session") = false →
      getHeader (updateSessionHeaders cl (updateSessionHeaders cl (updateSessionHeaders cl s
          [("X-Trino-Set-Session", e1)]) [("X-Trino-Set-Session", e2)])
          [("X-Trino-Clear-Session", k)]) "X-Trino-Session" = none) ∧
    (truthy (getHeader s "X-Trino-Prepared-Statement") = false →
      getHeader (updateSessionHeaders cl (updateSessionHeaders cl (updateSessionHeaders cl s
          [("X-Trino-Added-Prepare", e1)]) [("X-Trino-Added-Prepare", e2)])
          [("X-Trino-Deallocated-Prepare", k)]) "X-Trino-Prepared-Statement" = none) ∧
    (getHeader s "X-Trino-Session" = none →
      ∀ k2, getHeader (updateSessionHeaders cl s [("X-Trino-Clear-Session", k)]) k2 =
        getHeader s k2) ∧
    (∀ v, getHeader s "X-Trino-Session" = some v → v ≠ "" → ("" : String) ∉ splitComma v →
      getHeader (updateSessionHeaders cl s [("X-Trino-Clear-Session", k)]) "X-Trino-Session" =
        (if ((splitComma v).filter (fun e => !(startsWithStr e (k ++ "=")))) = [] then none
         else some (joinComma ((splitComma v).filter (fun e => !(startsWithStr e (k ++ "="))))))) := by
  have hsplit12 : splitComma (e1 ++ "," ++ e2) = [e1, e2] := by
    rw [splitComma_append_comma e1 e2 hc1, splitComma_no_comma e2 hc2]
  refine ⟨?_, ?_, ?_, ?_⟩
  · intro h0
    have hcur0 : (getHeader s "X-Trino-Session").getD "" = "" := by
      simpa [truthy] using h0
    have hs1 : updateSessionHeaders cl s [("X-Trino-Set-Session", e1)] =
        setHeader s "X-Trino-Session" (some e1) := by
      rw [update_setSession cl s e1 hne1, hcur0]
      simp [joinComma]
    have hs2 : updateSessionHeaders cl (setHeader s "X-Trino-Session" (some e1))
        [("X-Trino-Set-Session", e2)] =
        setHeader (setHeader s "X-Trino-Session" (some e1)) "X-Trino-Session"
          (some (e1 ++ "," ++ e2)) := by
      rw [update_setSession _ _ e2 hne2, getHeader_setHeader_self]
      simp only [Option.getD_some]
      rw [if_neg hne1, splitComma_no_comma e1 hc1]
      simp [joinComma]
    have hs3 : updateSessionHeaders cl (setHeader (setHeader s "X-Trino-Session" (some e1))
        "X-Trino-Session" (some (e1 ++ "," ++ e2))) [("X-Trino-Clear-Session", k)] =
        setHeader (setHeader (setHeader s "X-Trino-Session" (some e1)) "X-Trino-Session"
          (some (e1 ++ "," ++ e2))) "X-Trino-Session" none := by
      rw [update_clearSession _ _ k hk, getHeader_setHeader_self]
      simp only [Option.getD_some]
      rw [hsplit12]
      simp [List.filter_cons, he1, he2, joinComma, strOrUndefined]
    rw [hs1, hs2, hs3, getHeader_setHeader_self]
  · intro h0
    have hcur0 : (getHeader s "X-Trino-Prepared-Statement").getD "" = "" := by
      simpa [truthy] using h0
    have hs1 : updateSessionHeaders cl s [("X-Trino-Added-Prepare", e1)] =
        setHeader s "X-Trino-Prepared-Statement" (some e1) := by
      rw [update_addPrepare cl s e1 hne1, hcur0]
      simp [joinComma]
    have hs2 : updateSessionHeaders cl (setHeader s "X-Trino-Prepared-Statement" (some e1))
        [("X-Trino-Added-Prepare", e2)] =
        setHeader (setHeader s "X-Trino-Prepared-Statement" (some e1)) "X-Trino-Prepared-Statement"
          (some (e1 ++ "," ++ e2)) := by
      rw [update_addPrepare _ _ e2 hne2, getHeader_setHeader_self]
      simp only [Option.getD_some]
      rw [if_neg hne1, splitComma_no_comma e1 hc1]
      simp [joinComma]
    have hs3 : updateSessionHeaders cl (setHeader (setHeader s "X-Trino-Prepared-Statement"
        (some e1)) "X-Trino-Prepared-Statement" (some (e1 ++ "," ++ e2)))
        [("X-Trino-Deallocated-Prepare", k)] =
        setHeader (setHeader (setHeader s "X-Trino-Prepared-Statement" (some e1))
          "X-Trino-Prepared-Statement" (some (e1 ++ "," ++ e2))) "X-Trino-Prepared-Statement"
          none := by
      rw [update_deallocPrepare _ _ k hk, getHeader_setHeader_self]
      simp only [Option.getD_some]
      rw [hsplit12]
      simp [List.filter_cons, he1, he2, joinComma, strOrUndefined]
    rw [hs1, hs2, hs3, getHeader_setHeader_self]
  · intro h0 k2
    have hcur0 : (getHeader s "X-Trino-Session").getD "" = "" := by
      rw [h0]
      rfl
    have hres : updateSessionHeaders cl s [("X-Trino-Clear-Session", k)] =
        setHeader s "X-Trino-Session" none := by
      rw [update_clearSession cl s k hk, hcur0]
      have hsp : splitComma "" = [""] := rfl
      rw [hsp]
      simp [List.filter_cons, startsWithStr_empty_false (k ++ "=") (data_ne_nil_append_eq k),
        joinComma, strOrUndefined]
    rw [hres]
    by_cases hk2 : k2 = "X-Trino-Session"
    · subst hk2
      rw [getHeader_setHeader_self, h0]
    · rw [getHeader_setHeader_ne _ _ _ _ hk2]
  · intro v hv hvne hvno
    rw [update_clearSession cl s k hk, hv]
    simp only [Option.getD_some]
    rw [getHeader_setHeader_self]
    by_cases hl : ((splitComma v).filter (fun e => !(startsWithStr e (k ++ "=")))) = []
    · rw [hl, if_pos rfl]
      simp [joinComma, strOrUndefined]
    · rw [if_neg hl]
      have hjoin : joinComma ((splitComma v).filter (fun e => !(startsWithStr e (k ++ "=")))) ≠ "" := by
        apply joinComma_ne_empty _ hl
        intro e he heq
        exact hvno (heq ▸ (List.mem_filter.mp he).1)
      simp [strOrUndefined, hjoin]

/-- C4: impersonation round-trip.  On a state with no original-user
recorded (falsy), a set-authorization-user directive replaces the
acting user and snapshots the configured default user of the client — read
from the client configuration, not from the current acting user — into
the original-user field; a subsequent reset-authorization-user directive
restores the acting user to that snapshot and deletes the original-user
entry outright. -/
theorem impersonation_round_trip (cl : Trino) (s : HeaderMap) (u ru u0 : String)
    (hno : truthy (getHeader s "X-Trino-Original-User") = false)
    (hdef : getHeader cl.defaultHeaders "X-Trino-User" = some u0) (hu0 : u0 ≠ "")
    (hu : u ≠ "") (hr : ru ≠ "") :
    getHeader (updateSessionHeaders cl s [("X-Trino-Set-Authorization-User", u)])
        "X-Trino-User" = some u ∧
    getHeader (updateSessionHeaders cl s [("X-Trino-Set-Authorization-User", u)])
        "X-Trino-Original-User" = some u0 ∧
    getHeader (updateSessionHeaders cl
        (updateSessionHeaders cl s [("X-Trino-Set-Authorization-User", u)])
        [("X-Trino-Reset-Authorization-User", ru)]) "X-Trino-User" = some u0 ∧
    lookupEntry (updateSessionHeaders cl
        (updateSessionHeaders cl s [("X-Trino-Set-Authorization-User", u)])
        [("X-Trino-Reset-Authorization-User", ru)]) "X-Trino-Original-User" = none := by
  have hUO : ("X-Trino-Original-User" : String) ≠ "X-Trino-User" := by decide
  have hOU : ("X-Trino-User" : String) ≠ "X-Trino-Original-User" := by decide
  rw [update_setAuthUser cl s u hu]
  have hOrig : getHeader (setHeader s "X-Trino-User" (some u)) "X-Trino-Original-User" =
      getHeader s "X-Trino-Original-User" := getHeader_setHeader_ne _ _ _ _ hUO
  have hg : (!truthy (getHeader (setHeader s "X-Trino-User" (some u)) "X-Trino-Original-User") &&
      truthy (getHeader cl.defaultHeaders "X-Trino-User")) = true := by
    rw [hOrig, hno, hdef]
    simp [truthy, hu0]
  rw [if_pos hg]
  have h1 : getHeader (setHeader (setHeader s "X-Trino-User" (some u)) "X-Trino-Original-User"
      (getHeader cl.defaultHeaders "X-Trino-User")) "X-Trino-User" = some u := by
    rw [getHeader_setHeader_ne _ _ _ _ hOU, getHeader_setHeader_self]
  have h2 : getHeader (setHeader (setHeader s "X-Trino-User" (some u)) "X-Trino-Original-User"
      (getHeader cl.defaultHeaders "X-Trino-User")) "X-Trino-Original-User" = some u0 := by
    rw [getHeader_setHeader_self, hdef]
  rw [update_resetAuthUser cl _ ru hr]
  have hg2 : truthy (getHeader (setHeader (setHeader s "X-Trino-User" (some u))
      "X-Trino-Original-User" (getHeader cl.defaultHeaders "X-Trino-User"))
      "X-Trino-Original-User") = true := by
    rw [h2]
    simp [truthy, hu0]
  rw [if_pos hg2]
  refine ⟨h1, h2, ?_, lookupEntry_deleteHeader_self _ _⟩
  rw [getHeader_deleteHeader_ne _ _ _ hOU, getHeader_setHeader_self, h2]

/-- C5: transaction-id lifecycle.  A started-transaction-id directive
replaces the transaction-id field, and a subsequent
clear-transaction-id directive deletes the entry outright: afterwards
the key is absent from the state (`lookupEntry` is `none`), not present
with an empty value. -/
theorem transaction_id_lifecycle (cl : Trino) (s : HeaderMap) (tid c : String)
    (ht : tid ≠ "") (hc : c ≠ "") :
    getHeader (updateSessionHeaders cl s [("X-Trino-Started-Transaction-Id", tid)])
        "X-Trino-Transaction-Id" = some tid ∧
    lookupEntry (updateSessionHeaders cl
        (updateSessionHeaders cl s [("X-Trino-Started-Transaction-Id", tid)])
        [("X-Trino-Clear-Transaction-Id", c)]) "X-Trino-Transaction-Id" = none := by
  rw [update_startTransaction cl s tid ht, update_clearTransaction cl _ c hc]
  exact ⟨getHeader_setHeader_self _ _ _, lookupEntry_deleteHeader_self _ _⟩

/-! ### Engine lemmas -/

theorem queryLoop_none (cl : Trino) (s : HeaderMap) (oracle : List FetchOutcome) :
    queryLoop cl s none oracle = ([], []) := by
  cases oracle <;> rfl

theorem noEnvAfterFailure_queryLoop (oracle : List FetchOutcome) :
    ∀ (cl : Trino) (s : HeaderMap) (nu : Option String),
      noEnvAfterFailure (queryLoop cl s nu oracle).2 = true := by
  induction oracle with
  | nil =>
      intro cl s nu
      cases nu <;> simp [queryLoop, noEnvAfterFailure, isOkEnv]
  | cons o rest ih =>
      intro cl s nu
      cases nu with
      | none => simp [queryLoop, noEnvAfterFailure]
      | some uri =>
          cases o with
          | netError e => simp [queryLoop, noEnvAfterFailure, isOkEnv]
          | success r =>
              by_cases hok : r.ok
              · cases hb : r.body with
                | none => simp [queryLoop, hok, hb, noEnvAfterFailure, isOkEnv]
                | some result =>
                    cases he : result.error with
                    | some e => simp [queryLoop, hok, hb, he, noEnvAfterFailure, isOkEnv]
                    | none =>
                        simp [queryLoop, hok, hb, he, noEnvAfterFailure, isOkEnv]
                        exact ih cl _ result.nextUri
              · simp [queryLoop, hok, noEnvAfterFailure, isOkEnv]

theorem queryLoop_first_request (cl : Trino) (s : HeaderMap) (u : String)
    (oracle : List FetchOutcome) :
    ((queryLoop cl s (some u) oracle).1).head? =
      some ⟨"GET", u, buildHeaders cl s none⟩ := by
  cases oracle with
  | nil => rfl
  | cons o rest =>
      cases o with
      | netError e => rfl
      | success r =>
          by_cases hok : r.ok
          · cases hb : r.body with
            | none => simp [queryLoop, hok, hb]
            | some result =>
                cases he : result.error with
                | some e => simp [queryLoop, hok, hb, he]
                | none => simp [queryLoop, hok, hb, he]
          · simp [queryLoop, hok]

theorem queryLoop_requests (oracle : List FetchOutcome) :
    ∀ (cl : Trino) (s : HeaderMap) (nu : Option String) (r : HttpRequest),
      r ∈ (queryLoop cl s nu oracle).1 →
        r.method = "GET" ∧ ∃ s2, r.headers = buildHeaders cl s2 none := by
  induction oracle with
  | nil =>
      intro cl s nu r hr
      cases nu with
      | none => simp [queryLoop] at hr
      | some uri =>
          rw [queryLoop] at hr
          simp at hr
          subst hr
          exact ⟨rfl, s, rfl⟩
  | cons o rest ih =>
      intro cl s nu r hr
      cases nu with
      | none => simp [queryLoop] at hr
      | some uri =>
          cases o with
          | netError e =>
              rw [queryLoop] at hr
              simp at hr
              subst hr
              exact ⟨rfl, s, rfl⟩
          | success resp =>
              by_cases hok : resp.ok
              · cases hb : resp.body with
                | none =>
                    rw [queryLoop] at hr
                    simp [hok, hb] at hr
                    subst hr
                    exact ⟨rfl, s, rfl⟩
                | some result =>
                    cases he : result.error with
                    | some e =>
                        rw [queryLoop] at hr
                        simp [hok, hb, he] at hr
                        subst hr
                        exact ⟨rfl, s, rfl⟩
                    | none =>
                        rw [queryLoop] at hr
                        simp [hok, hb, he] at hr
                        rcases hr with hr | hr
                        · subst hr
                          exact ⟨rfl, s, rfl⟩
                        · exact ih cl _ result.nextUri r hr
              · rw [queryLoop] at hr
                simp [hok] at hr
                subst hr
                exact ⟨rfl, s, rfl⟩

theorem executeQuery_tail_requests (cl : Trino) (opts : Option HeaderMap)
    (oracle : List FetchOutcome) (r : HttpRequest)
    (hr : r ∈ (executeQuery cl opts oracle).1.tail) :
    r.method = "GET" ∧ ∃ s2, r.headers = buildHeaders cl s2 none := by
  cases oracle with
  | nil => simp [executeQuery] at hr
  | cons o rest =>
      cases o with
      | netError e => simp [executeQuery] at hr
      | success resp =>
          by_cases hok : resp.ok
          · cases hb : resp.body with
            | none => simp [executeQuery, hok, hb] at hr
            | some result =>
                cases he : result.error with
                | some e => simp [executeQuery, hok, hb, he] at hr
                | none =>
                    simp [executeQuery, hok, hb, he] at hr
                    exact queryLoop_requests rest cl _ result.nextUri r hr
          · simp [executeQuery, hok] at hr

theorem executeQuery_head_request (cl : Trino) (opts : Option HeaderMap)
    (oracle : List FetchOutcome) :
    ((executeQuery cl opts oracle).1).head? =
      some ⟨"POST", cl.baseUrl ++ "/v1/statement",
        setEntry (buildHeaders cl [] opts) "Content-Type" "text/plain"⟩ := by
  cases oracle with
  | nil => rfl
  | cons o rest =>
      cases o with
      | netError e => rfl
      | success r =>
          by_cases hok : r.ok
          · cases hb : r.body with
            | none => simp [executeQuery, hok, hb]
            | some result =>
                cases he : result.error with
                | some e => simp [executeQuery, hok, hb, he]
                | none => simp [executeQuery, hok, hb, he]
          · simp [executeQuery, hok]

/-- C6 (amended): classification of a structured protocol-error payload
is determined by the `errorType` discriminant: each of the four
recognized values maps to its error kind, preserving the complete
payload (the object spread copies every field); a payload with any other
`errorType` string makes the classifier return `undefined` (`none`) —
the switch has no default branch — rather than raising a fatal condition
or coercing to a known kind. -/
theorem createQueryError_classification (e : QueryError) :
    (e.errorType = "USER_ERROR" → createQueryError e = some ⟨"UserError", e⟩) ∧
    (e.errorType = "INTERNAL_ERROR" → createQueryError e = some ⟨"InternalError", e⟩) ∧
    (e.errorType = "EXTERNAL" → createQueryError e = some ⟨"ExternalError", e⟩) ∧
    (e.errorType = "INSUFFICIENT_RESOURCES" →
      createQueryError e = some ⟨"InsufficientResourcesError", e⟩) ∧
    (e.errorType ≠ "USER_ERROR" → e.errorType ≠ "INTERNAL_ERROR" → e.errorType ≠ "EXTERNAL" →
      e.errorType ≠ "INSUFFICIENT_RESOURCES" → createQueryError e = none) := by
  refine ⟨fun h => by simp [createQueryError, h], fun h => by simp [createQueryError, h],
    fun h => by simp [createQueryError, h], fun h => by simp [createQueryError, h], ?_⟩
  intro h1 h2 h3 h4
  unfold createQueryError
  split <;> simp_all

/-- C7: sequence shape.  For every call to `executeQuery` the emitted
envelope list is non-empty and consists of zero or more success
envelopes followed by at most one terminal failure envelope; no envelope
of any kind follows a failure. -/
theorem executeQuery_envelope_shape (cl : Trino) (opts : Option HeaderMap)
    (oracle : List FetchOutcome) : goodShape (executeQuery cl opts oracle).2 = true := by
  cases oracle with
  | nil => simp [executeQuery, goodShape, noEnvAfterFailure, isOkEnv]
  | cons o rest =>
      cases o with
      | netError e => simp [executeQuery, goodShape, noEnvAfterFailure, isOkEnv]
      | success r =>
          by_cases hok : r.ok
          · cases hb : r.body with
            | none => simp [executeQuery, hok, hb, goodShape, noEnvAfterFailure, isOkEnv]
            | some result =>
                cases he : result.error with
                | some e => simp [executeQuery, hok, hb, he, goodShape, noEnvAfterFailure, isOkEnv]
                | none =>
                    simp [executeQuery, hok, hb, he, goodShape, noEnvAfterFailure, isOkEnv]
                    exact noEnvAfterFailure_queryLoop rest cl _ result.nextUri
          · simp [executeQuery, hok, goodShape, noEnvAfterFailure, isOkEnv]

/-- C8: continuation loop.  The loop issues no request when the most
recent success carries no continuation reference (it terminates exactly
then); when a continuation reference `u` is present the next request is
a GET to exactly `u` with headers built from the defaults merged with
the current session state only; and every request of the loop — equally,
every request of `executeQuery` after the initial POST — is a GET whose
headers are `buildHeaders` of some session state with no per-call
override headers reapplied. -/
theorem executeQuery_continuation_loop (cl : Trino) (opts : Option HeaderMap) (s : HeaderMap)
    (oracle : List FetchOutcome) :
    queryLoop cl s none oracle = ([], []) ∧
    (∀ u, ((queryLoop cl s (some u) oracle).1).head? =
      some ⟨"GET", u, buildHeaders cl s none⟩) ∧
    (∀ nu r, r ∈ (queryLoop cl s nu oracle).1 →
        r.method = "GET" ∧ ∃ s2, r.headers = buildHeaders cl s2 none) ∧
    (∀ r, r ∈ (executeQuery cl opts oracle).1.tail →
        r.method = "GET" ∧ ∃ s2, r.headers = buildHeaders cl s2 none) :=
  ⟨queryLoop_none cl s oracle, fun u => queryLoop_first_request cl s u oracle,
   fun nu r hr => queryLoop_requests oracle cl s nu r hr,
   fun r hr => executeQuery_tail_requests cl opts oracle r hr⟩

/-- C8 witness: on a concrete client and oracle, the continuation request
to `http://next` is a GET with session-only headers. -/
theorem executeQuery_continuation_loop_witness :
    (⟨"GET", "http://next", buildHeaders clW [] none⟩ : HttpRequest).method = "GET" ∧
    ∃ s2, (⟨"GET", "http://next", buildHeaders clW [] none⟩ : HttpRequest).headers =
      buildHeaders clW s2 none :=
  (executeQuery_continuation_loop clW none [] [FetchOutcome.netError "boom"]).2.2.1
    (some "http://next") ⟨"GET", "http://next", buildHeaders clW [] none⟩ (by simp [queryLoop])

/-- The request issued by `cancelQuery`, in every outcome. -/
theorem cancelQuery_request (cl : Trino) (uri : String) (outcome : FetchOutcome) :
    (cancelQuery cl uri outcome).1 = ⟨"DELETE", uri, buildHeaders cl [] none⟩ := by
  cases outcome with
  | netError e => rfl
  | success r =>
      by_cases hok : r.ok
      · simp [cancelQuery, hok]
      · simp [cancelQuery, hok]

/-- C9: `cancelQuery` issues a single DELETE to the given reference with
headers built from the defaults and the client-level session state (the
client instance holds none, so the session contribution is empty); a 2xx
response yields a success outcome with no payload, a non-2xx response an
Http failure wrapping the response, and a transport exception a Fetch
failure wrapping it.  The function threads no session state at all, so
the session state is left unchanged by construction. -/
theorem cancelQuery_contract (cl : Trino) (uri : String) (outcome : FetchOutcome) :
    (cancelQuery cl uri outcome).1 = ⟨"DELETE", uri, buildHeaders cl [] none⟩ ∧
    (cancelQuery cl uri outcome).2 =
      (match outcome with
       | FetchOutcome.netError e => CancelResult.fetchError e
       | FetchOutcome.success r =>
           if r.ok then CancelResult.ok else CancelResult.httpError r) := by
  refine ⟨cancelQuery_request cl uri outcome, ?_⟩
  cases outcome with
  | netError e => rfl
  | success r =>
      by_cases hok : r.ok
      · simp [cancelQuery, hok]
      · simp [cancelQuery, hok]

/-- C10: per-query session isolation.  Every `executeQuery` call begins
with empty session headers — its initial request is a POST to
`{base}/v1/statement` whose headers are built from the empty session
(plus the per-call overrides and the fixed `Content-Type`) regardless of
the history of any other call — and `cancelQuery` builds its headers from the
empty session as well, so the session merges of one call are never visible to
another call.  In this purely functional embedding `updateSessionHeaders`
returns a fresh map by construction, which mirrors the copy-before-update of the source
 (`{...sessionHeaders}` spread). -/
theorem executeQuery_session_isolation (cl : Trino) (opts : Option HeaderMap)
    (oracle : List FetchOutcome) (uri : String) (outcome : FetchOutcome) :
    ((executeQuery cl opts oracle).1).head? =
      some ⟨"POST", cl.baseUrl ++ "/v1/statement",
        setEntry (buildHeaders cl [] opts) "Content-Type" "text/plain"⟩ ∧
    (cancelQuery cl uri outcome).1.headers = buildHeaders cl [] none :=
  ⟨executeQuery_head_request cl opts oracle, by rw [cancelQuery_request cl uri outcome]⟩

/-- C1: the session-directive matching is case-sensitive, contradicting
the specified case-insensitivity.  A response whose directive headers
arrive under the lowercase names that the fetch `Headers` API produces —
the names declared by the repository in its own `ClientResponseHeaders` type —
matches none of the mixed-case keys `updateSessionHeaders` looks up, so
the merge returns the state unchanged and no session field is updated. -/
theorem updateSessionHeaders_lowercase_directive_ignored (cl : Trino) (s : HeaderMap) :
    updateSessionHeaders cl s
      [("x-trino-set-catalog", "memory"), ("x-trino-set-schema", "sf1"),
       ("x-trino-set-session", "a=1"), ("x-trino-started-transaction-id", "tx7")] = s ∧
    getHeader (updateSessionHeaders cl []
      [("x-trino-set-catalog", "memory")]) "X-Trino-Catalog" = none := by
  refine ⟨?_, ?_⟩ <;>
    simp [updateSessionHeaders, getHeader, lookupEntry, setHeader, truthyVal]

/-- C6 counterexample: at the concrete out-of-contract payload `eBad`
(`errorType` is not one of the four recognized values) the classifier
returns `undefined`, and the execution sequence emits a failure envelope
whose error value is `undefined` — the payload is dropped silently, no
fatal or unexpected condition is surfaced. -/
theorem errorType_unknown_not_surfaced :
    createQueryError eBad = none ∧
    (executeQuery clW none [FetchOutcome.success rBad]).2 = [Result.err none] := by
  constructor
  · rfl
  · rfl

/-- C6 witness: a payload with `errorType` USER_ERROR classifies as the
UserError kind with the payload preserved. -/
theorem createQueryError_classification_witness :
    createQueryError eUser = some ⟨"UserError", eUser⟩ :=
  (createQueryError_classification eUser).1 rfl

/-- C2 witness: concrete instance of the precedence merge, with a bearer
client, defaults, a session value overriding a default, and a per-call
override. -/
theorem buildHeaders_precedence_merge_witness :
    lookupStr (buildHeaders clW2 [("x-trino-catalog", some "memory")]
        (some [("x-trino-schema", some "tiny")])) "x-trino-catalog" =
      specMergedHeader clW2 [("x-trino-catalog", some "memory")]
        (some [("x-trino-schema", some "tiny")]) "x-trino-catalog" :=
  buildHeaders_precedence_merge clW2 [("x-trino-catalog", some "memory")]
    (some [("x-trino-schema", some "tiny")]) "x-trino-catalog" (by decide) (by decide)
    (by decide)

/-- C3 witness: appending `k=1` then `k=2` and clearing `k` on an empty
state leaves the session-property field absent. -/
theorem session_multiset_append_clear_witness :
    getHeader (updateSessionHeaders clW (updateSessionHeaders clW (updateSessionHeaders clW []
        [("X-Trino-Set-Session", "k=1")]) [("X-Trino-Set-Session", "k=2")])
        [("X-Trino-Clear-Session", "k")]) "X-Trino-Session" = none :=
  (session_multiset_append_clear clW [] "k" "k=1" "k=2" (by decide) (by decide) (by decide)
    (by decide) (by decide) (by decide) (by decide)).1 (by decide)

/-- C4 witness: with default user alice, set-authorization-user bob then
reset-authorization-user restores alice. -/
theorem impersonation_round_trip_witness :
    getHeader (updateSessionHeaders clU (updateSessionHeaders clU []
        [("X-Trino-Set-Authorization-User", "bob")])
        [("X-Trino-Reset-Authorization-User", "true")]) "X-Trino-User" = some "alice" :=
  (impersonation_round_trip clU [] "bob" "true" "alice" (by decide) (by decide) (by decide)
    (by decide) (by decide)).2.2.1

/-- C5 witness: starting transaction `tx7` and clearing it removes the
transaction-id entry outright. -/
theorem transaction_id_lifecycle_witness :
    getHeader (updateSessionHeaders clW [] [("X-Trino-Started-Transaction-Id", "tx7")])
        "X-Trino-Transaction-Id" = some "tx7" ∧
    lookupEntry (updateSessionHeaders clW
        (updateSessionHeaders clW [] [("X-Trino-Started-Transaction-Id", "tx7")])
        [("X-Trino-Clear-Transaction-Id", "true")]) "X-Trino-Transaction-Id" = none :=
  transaction_id_lifecycle clW [] "tx7" "true" (by decide) (by decide)

end TrinoClient
